import Mathlib

/-!
Shallow embedding of `src/school_center.py` (the allocation engine of the
center-randomize repository) and verification of the spec's claims about it.

Modelling conventions, stated once here:

* Python `dict[str, α]` is modelled as an insertion-ordered association list
  `List (String × α)` with first-match lookup (`pyget`) and in-place update /
  append (`pyset`), which is exactly CPython's observable dict semantics for
  the operations this program performs (`get`, `[k] = v`, `[k] += v`).
* Python `int` is arbitrary precision, modelled as `Int`.
* `haversine_distance` (line 32) is a pure floating-point function of the four
  coordinates; its numeric value is irrelevant to every claim (only comparisons
  against thresholds matter), so the embedding abstracts it as an explicit
  parameter `hav : ℚ → ℚ → ℚ → ℚ → ℚ` threaded to each use site, and latitude /
  longitude fields are carried as `ℚ`.
* `random.uniform(1, 5) * x.capacity` (line 89), the randomized sort key, is
  abstracted as an explicit parameter `rkey : Center → ℚ` (one draw per center
  per selector call; the run takes `rkey : School → Center → ℚ`).  Python's
  `sorted` is a stable comparison sort by the key; it is modelled by
  `List.insertionSort` with the relation `rkey a ≤ rkey b`, which is also a
  stable sort, and no claim depends on more than the result being a stable
  permutation.
* File/console output (`csv.writer` rows, `print`) carries no state the
  allocation logic reads back, so the main model `allocate_students_to_centers`
  elides it, with two exceptions made explicit:
  (1) the `print` at line 142 is the program's per-school shortfall report, so
      the model records it in a `reported` list;
  (2) the logging line 131 reads `center.distance_km`, a dynamic attribute that
      no statement of the file ever assigns, and line 145 reads the global name
      `centers_remaining_cap`, which no statement of the file ever defines;
      both reads raise in Python.  These two raising reads (plus the
      `None.cscode` read that line 131/132 performs when the candidate list is
      `[None]`) are modelled faithfully in the `Checked` variants below, which
      return `Except String`.  In the elided main model, a `None` candidate
      still aborts the run (result `none`), because even without the logging
      the very next statement (line 132) dereferences it.
-/

set_option maxHeartbeats 1000000

namespace SchoolCenter

/-! ## Python dict model -/

/-- First-match lookup in an association list: `d.get(key)`. -/
def pyget {α : Type} : List (String × α) → String → Option α
  | [], _ => none
  | (k, v) :: rest, key => if k = key then some v else pyget rest key

/-- `d[key] = v`: replace the value at the first occurrence of `key`, or append
a fresh binding when `key` is absent (Python dicts keep insertion order). -/
def pyset {α : Type} : List (String × α) → String → α → List (String × α)
  | [], key, v => [(key, v)]
  | (k, w) :: rest, key, v =>
      if k = key then (key, v) :: rest else (k, w) :: pyset rest key v

/-- The nested dict type used for both the preference table and the
allocation ledger: `Dict[str, Dict[str, int]]`. -/
abbrev Dict2 := List (String × List (String × Int))

/-- Nested lookup `d[s][c]` as an `Option`. -/
def pyget2 (d : Dict2) (s c : String) : Option Int :=
  match pyget d s with
  | some inner => pyget inner c
  | none => none

/-! ## Data model (lines 14-30) -/

/-- `class School` (line 14): `scode`, `count = int(count)`, `name`, `address`,
`lat = float(lat)`, `long = float(long)`. -/
structure School where
  scode : String
  count : Int
  name : String
  address : String
  lat : ℚ
  long : ℚ
  deriving DecidableEq

/-- `class Center` (line 23): `cscode`, `capacity = int(capacity)`, `name`,
`address`, `lat`, `long`. -/
structure Center where
  cscode : String
  capacity : Int
  name : String
  address : String
  lat : ℚ
  long : ℚ
  deriving DecidableEq

/-! ## Constants (lines 7-12) -/

/-- Line 8: preferred threshold distance in kilometers. -/
def PREF_DISTANCE_THRESHOLD : ℚ := 2

/-- Line 9: absolute threshold distance in kilometers (unused by the run). -/
def ABS_DISTANCE_THRESHOLD : ℚ := 7

/-- Line 10: per-school per-center soft cap. -/
def MIN_STUDENT_IN_CENTER : Int := 10

/-- Line 11: stretch factor (declared but never used by any statement). -/
def STRETCH_CAPACITY_FACTOR : ℚ := 2 / 100

/-- Line 12: do not allocate students with preference score less than cutoff. -/
def PREF_CUTOFF : Int := -4

/-! ## Preference index (lines 57-69, 93-96) -/

/-- A `(scode, cscode, pref)` row of the preferences TSV, already parsed. -/
abbrev PrefRow := String × String × Int

/-- One iteration of the `read_prefs` loop body (lines 61-68), including the
Python truthiness tests: `if prefs.get(row['scode'])` is false for a missing
key and for an empty inner dict, and `if prefs[scode].get(cscode)` is false
for a missing key and for a stored score equal to `0` (in which case the code
assigns instead of `+=`, which is numerically the same). -/
def read_prefs_step (prefs : Dict2) (row : PrefRow) : Dict2 :=
  match pyget prefs row.1 with
  | some inner =>
      if inner.isEmpty then pyset prefs row.1 [(row.2.1, row.2.2)]
      else
        match pyget inner row.2.1 with
        | some old =>
            if old = 0 then pyset prefs row.1 (pyset inner row.2.1 row.2.2)
            else pyset prefs row.1 (pyset inner row.2.1 (old + row.2.2))
        | none => pyset prefs row.1 (pyset inner row.2.1 row.2.2)
  | none => pyset prefs row.1 [(row.2.1, row.2.2)]

/-- `read_prefs` (line 57): fold the row loop over the parsed rows, starting
from the empty dict. -/
def read_prefs (rows : List PrefRow) : Dict2 :=
  rows.foldl read_prefs_step []

/-- `get_pref` (line 93): `if prefs.get(scode): return prefs[scode].get(cscode, 0); return 0`.
The truthiness test sends a missing or empty inner dict to `0`. -/
def get_pref (prefs : Dict2) (scode cscode : String) : Int :=
  match pyget prefs scode with
  | some inner => if inner.isEmpty then 0 else (pyget inner cscode).getD 0
  | none => 0

/-- Specification-side value: the sum of the `pref` fields of all rows whose
`(scode, cscode)` pair matches. -/
def pref_row_sum : List PrefRow → String → String → Int
  | [], _, _ => 0
  | r :: rest, s, c =>
      (if r.1 = s ∧ r.2.1 = c then r.2.2 else 0) + pref_row_sum rest s c

/-! ## Candidate selector (lines 71-91) -/

/-- One iteration of the `centers_within_distance` loop body (lines 76-86).
The accumulator carries the `within_distance` list and the
`(nearest_distance, nearest_center)` pair (`None` before the first non-self
center).  The body computes the distance, skips a center whose code equals the
school's code, updates the nearest tracker under a strict `<` comparison, and
appends the center to `within_distance` when it passes the distance threshold
and the strict preference cutoff. -/
def cwdStep (hav : ℚ → ℚ → ℚ → ℚ → ℚ) (prefs : Dict2) (school : School)
    (distance_threshold : ℚ) (acc : List Center × Option (ℚ × Center))
    (center : Center) : List Center × Option (ℚ × Center) :=
  let distance := hav school.lat school.long center.lat center.long
  if school.scode = center.cscode then acc
  else
    let nearest : Option (ℚ × Center) :=
      match acc.2 with
      | none => some (distance, center)
      | some (nd, nc) =>
          if distance < nd then some (distance, center) else some (nd, nc)
    let within :=
      if distance ≤ distance_threshold ∧
          get_pref prefs school.scode center.cscode > PREF_CUTOFF then
        acc.1 ++ [center]
      else acc.1
    (within, nearest)

/-- The `within_distance` list built by the loop of lines 76-86. -/
def within_distance (hav : ℚ → ℚ → ℚ → ℚ → ℚ) (prefs : Dict2) (school : School)
    (centers : List Center) (distance_threshold : ℚ) : List Center :=
  (centers.foldl (cwdStep hav prefs school distance_threshold) ([], none)).1

/-- The `(nearest_distance, nearest_center)` tracker after the loop of
lines 76-86 (`none` when every center is self-coded or `centers` is empty). -/
def nearest_center (hav : ℚ → ℚ → ℚ → ℚ → ℚ) (prefs : Dict2) (school : School)
    (centers : List Center) (distance_threshold : ℚ) : Option (ℚ × Center) :=
  (centers.foldl (cwdStep hav prefs school distance_threshold) ([], none)).2

/-- `centers_within_distance` (line 71).  Elements are `Option Center` because
the fallback branch returns the Python list `[nearest_center]`, whose single
element is `None` when no non-self center was seen. -/
def centers_within_distance (hav : ℚ → ℚ → ℚ → ℚ → ℚ) (rkey : Center → ℚ)
    (prefs : Dict2) (school : School) (centers : List Center)
    (distance_threshold : ℚ) : List (Option Center) :=
  if within_distance hav prefs school centers distance_threshold = [] then
    [Option.map Prod.snd (nearest_center hav prefs school centers distance_threshold)]
  else
    (List.insertionSort (fun a b => rkey a ≤ rkey b)
      (within_distance hav prefs school centers distance_threshold)).map some

/-- The eligibility test of line 85 together with the self-exclusion of
line 78, as a Boolean predicate on one center. -/
def isEligible (hav : ℚ → ℚ → ℚ → ℚ → ℚ) (prefs : Dict2) (school : School)
    (distance_threshold : ℚ) (center : Center) : Bool :=
  if school.scode = center.cscode then false
  else
    decide (hav school.lat school.long center.lat center.long ≤ distance_threshold ∧
      get_pref prefs school.scode center.cscode > PREF_CUTOFF)

/-- Just the nearest-tracker update of lines 81-83 (the second accumulator
component of `cwdStep`, which is independent of the first). -/
def nearestStep (hav : ℚ → ℚ → ℚ → ℚ → ℚ) (school : School)
    (acc : Option (ℚ × Center)) (center : Center) : Option (ℚ × Center) :=
  let distance := hav school.lat school.long center.lat center.long
  if school.scode = center.cscode then acc
  else
    match acc with
    | none => some (distance, center)
    | some (nd, nc) =>
        if distance < nd then some (distance, center) else some (nd, nc)

/-! ## Allocation ledger (lines 98-109) -/

/-- `allocate` (line 98): create or accumulate the ledger entry
`allocations[scode][cscode]` (the three `is None` branches of lines 99-104). -/
def allocate (allocations : Dict2) (scode cscode : String) (count : Int) : Dict2 :=
  match pyget allocations scode with
  | none => pyset allocations scode [(cscode, count)]
  | some inner =>
      match pyget inner cscode with
      | none => pyset allocations scode (pyset inner cscode count)
      | some old => pyset allocations scode (pyset inner cscode (old + count))

/-- `is_allocated` (line 106): `if allocations.get(scode1): return
allocations[scode1].get(scode2) is not None; return False`.  The truthiness
test sends a missing or empty dict at `scode1` to `False`.  Note the
argument names: the caller at line 132 passes `(center.cscode, school.scode)`,
so as used the lookup is keyed center-first. -/
def is_allocated (allocations : Dict2) (scode1 scode2 : String) : Bool :=
  match pyget allocations scode1 with
  | some inner => if inner.isEmpty then false else (pyget inner scode2).isSome
  | none => false

/-! ## Allocation engine (lines 111-148) -/

/-- The inner candidate loop of lines 130-138 operating on
`(allocations, students_to_allocate)`.  A `none` list element is the Python
`None` produced by the fallback branch when no non-self center exists; the
loop body dereferences it (lines 131-132), so the run aborts (`none`).
The logging `writerow` calls are elided here (see `centerLoopChecked` for the
faithful raising model of line 131). -/
def centerLoop (school : School) (per_center : Int) :
    Dict2 → Int → List (Option Center) → Option (Dict2 × Int)
  | alloc, students, [] => some (alloc, students)
  | alloc, students, oc :: rest =>
      match oc with
      | none => none
      | some center =>
          if is_allocated alloc center.cscode school.scode then
            centerLoop school per_center alloc students rest
          else
            let next_allocation := min (min students per_center) center.capacity
            if 0 < next_allocation then
              centerLoop school per_center
                (allocate alloc school.scode center.cscode next_allocation)
                (students - next_allocation) rest
            else
              centerLoop school per_center alloc students rest

/-- Run state of `allocate_students_to_centers`: the ledger, the running
`remaining_students` total (line 114/141), and the per-school shortfall
reports printed at line 142, recorded as `(scode, shortfall)` pairs. -/
structure RunState where
  allocations : Dict2
  remaining_students : Int
  reported : List (String × Int)
  deriving DecidableEq

/-- The per-school loop of lines 123-142: select candidates, fix
`per_center = min(school.count, MIN_STUDENT_IN_CENTER)` once, run the
candidate loop, then report any positive shortfall. -/
def schoolLoop (hav : ℚ → ℚ → ℚ → ℚ → ℚ) (rkey : School → Center → ℚ)
    (prefs : Dict2) (centers : List Center) :
    RunState → List School → Option RunState
  | st, [] => some st
  | st, school :: rest =>
      match centerLoop school (min school.count MIN_STUDENT_IN_CENTER)
          st.allocations school.count
          (centers_within_distance hav (rkey school) prefs school centers
            PREF_DISTANCE_THRESHOLD) with
      | none => none
      | some (alloc, students) =>
          if 0 < students then
            schoolLoop hav rkey prefs centers
              ⟨alloc, st.remaining_students + students,
                st.reported ++ [(school.scode, students)]⟩ rest
          else
            schoolLoop hav rkey prefs centers
              ⟨alloc, st.remaining_students, st.reported⟩ rest

/-- `allocate_students_to_centers` (line 111) with the file/console output
elided: start from the empty ledger and zero remainder and process every
school.  `none` means the Python run raised while dereferencing a `None`
candidate (see `centerLoop`). -/
def allocate_students_to_centers (hav : ℚ → ℚ → ℚ → ℚ → ℚ)
    (rkey : School → Center → ℚ) (prefs : Dict2) (schools : List School)
    (centers : List Center) : Option RunState :=
  schoolLoop hav rkey prefs centers ⟨[], 0, []⟩ schools

/-! ## Observations on the run state -/

/-- Sum of the values of one inner dict. -/
def dict_sum (d : List (String × Int)) : Int := (d.map Prod.snd).sum

/-- Sum of all allocations committed into center `cscode` (over all schools). -/
def sum_into (alloc : Dict2) (cscode : String) : Int :=
  (alloc.map (fun e => (pyget e.2 cscode).getD 0)).sum

/-- Sum of all allocations committed out of school `scode` (over all centers). -/
def sum_out (alloc : Dict2) (scode : String) : Int :=
  dict_sum ((pyget alloc scode).getD [])

/-- The shortfall reported for `scode` at line 142 (0 when no report). -/
def reported_shortfall (reported : List (String × Int)) (scode : String) : Int :=
  (pyget reported scode).getD 0

/-! ## Raising reads, modelled faithfully (for the crash claims)

`Center.__init__` (line 24) sets exactly `cscode, capacity, name, address,
lat, long`; no statement of `school_center.py` ever assigns a `distance_km`
attribute, and no statement ever binds the global name `centers_remaining_cap`.
-/

/-- The (empty) store of the dynamic attribute `distance_km`: reading
`center.distance_km` (lines 131 and 137) finds nothing and raises
`AttributeError`. -/
def center_distance_km (_center : Center) : Option ℚ := none

/-- The global name `centers_remaining_cap` read at line 145: never defined,
so the read raises `NameError`. -/
def centers_remaining_cap : Option (List (String × Int)) := none

/-- The candidate loop with the line-131 logging read modelled: every
iteration first evaluates `center.cscode` and `center.distance_km` for the
`writerow`, raising on a `None` candidate or on the missing attribute. -/
def centerLoopChecked (school : School) (per_center : Int) :
    Dict2 → Int → List (Option Center) → Except String (Dict2 × Int)
  | alloc, students, [] => Except.ok (alloc, students)
  | alloc, students, oc :: rest =>
      match oc with
      | none =>
          Except.error "AttributeError: NoneType object has no attribute cscode"
      | some center =>
          match center_distance_km center with
          | none =>
              Except.error "AttributeError: Center object has no attribute distance_km"
          | some _ =>
              if is_allocated alloc center.cscode school.scode then
                centerLoopChecked school per_center alloc students rest
              else
                let next_allocation := min (min students per_center) center.capacity
                if 0 < next_allocation then
                  centerLoopChecked school per_center
                    (allocate alloc school.scode center.cscode next_allocation)
                    (students - next_allocation) rest
                else
                  centerLoopChecked school per_center alloc students rest

/-- The per-school loop with raising reads modelled (shortfall bookkeeping as
in `schoolLoop`, error propagation from the candidate loop). -/
def schoolLoopChecked (hav : ℚ → ℚ → ℚ → ℚ → ℚ) (rkey : School → Center → ℚ)
    (prefs : Dict2) (centers : List Center) :
    RunState → List School → Except String RunState
  | st, [] => Except.ok st
  | st, school :: rest =>
      match centerLoopChecked school (min school.count MIN_STUDENT_IN_CENTER)
          st.allocations school.count
          (centers_within_distance hav (rkey school) prefs school centers
            PREF_DISTANCE_THRESHOLD) with
      | Except.error e => Except.error e
      | Except.ok (alloc, students) =>
          if 0 < students then
            schoolLoopChecked hav rkey prefs centers
              ⟨alloc, st.remaining_students + students,
                st.reported ++ [(school.scode, students)]⟩ rest
          else
            schoolLoopChecked hav rkey prefs centers
              ⟨alloc, st.remaining_students, st.reported⟩ rest

/-- `allocate_students_to_centers` with the raising reads modelled: the school
loop (which raises at line 131 on its first candidate), then the end-of-run
summary of lines 144-148, whose line 145 reads the undefined global
`centers_remaining_cap`. -/
def allocate_students_to_centers_checked (hav : ℚ → ℚ → ℚ → ℚ → ℚ)
    (rkey : School → Center → ℚ) (prefs : Dict2) (schools : List School)
    (centers : List Center) : Except String RunState :=
  match schoolLoopChecked hav rkey prefs centers ⟨[], 0, []⟩ schools with
  | Except.error e => Except.error e
  | Except.ok st =>
      match centers_remaining_cap with
      | none => Except.error "NameError: name centers_remaining_cap is not defined"
      | some _ => Except.ok st

/-! ## Concrete test fixtures (used by the counterexample and witness
theorems): a constant distance function, a constant sort key, and small
schools/centers. -/

/-- Distance function placing every school-center pair at 0 km. -/
def hav0 : ℚ → ℚ → ℚ → ℚ → ℚ := fun _ _ _ _ => 0

/-- A fixed outcome for the randomized sort key. -/
def rkey1 : School → Center → ℚ := fun _ _ => 1

def schoolA : School := ⟨"A", 15, "School A", "addr A", 0, 0⟩

def schoolB : School := ⟨"B", 15, "School B", "addr B", 0, 0⟩

def centerC : Center := ⟨"C", 12, "Center C", "addr C", 0, 0⟩

def schoolD : School := ⟨"S", 10, "School S", "addr S", 0, 0⟩

def centerE : Center := ⟨"C", 20, "Center C2", "addr C2", 0, 0⟩

def schoolF : School := ⟨"F", 8, "School F", "addr F", 0, 0⟩

def centerG : Center := ⟨"G", 30, "Center G", "addr G", 0, 0⟩

/-- Distance function placing every pair at 3 km (beyond the 2 km preferred
threshold). -/
def hav3 : ℚ → ℚ → ℚ → ℚ → ℚ := fun _ _ _ _ => 3

/-- A fixed selector-level sort key. -/
def rk1 : Center → ℚ := fun _ => 1

/-! ## Dict lemmas -/

theorem pyget_pyset_self {α : Type} (l : List (String × α)) (k : String) (v : α) :
    pyget (pyset l k v) k = some v := by
  induction l with
  | nil => simp [pyget, pyset]
  | cons hd tl ih =>
      obtain ⟨k', v'⟩ := hd
      by_cases h : k' = k
      · simp [pyset, h, pyget]
      · simp [pyset, h, pyget, ih]

theorem pyget_pyset_ne {α : Type} (l : List (String × α)) (k k' : String) (v : α)
    (h : k' ≠ k) : pyget (pyset l k v) k' = pyget l k' := by
  induction l with
  | nil => simp [pyget, pyset, Ne.symm h]
  | cons hd tl ih =>
      obtain ⟨k₀, v₀⟩ := hd
      by_cases h₀ : k₀ = k
      · subst h₀
        simp [pyset, pyget, Ne.symm h]
      · simp [pyset, h₀, pyget, ih]

theorem pyset_ne_nil {α : Type} (l : List (String × α)) (k : String) (v : α) :
    pyset l k v ≠ [] := by
  cases l with
  | nil => simp [pyset]
  | cons hd tl =>
      obtain ⟨k₀, v₀⟩ := hd
      by_cases h : k₀ = k <;> simp [pyset, h]

theorem pyget_append_some {α : Type} (l₁ l₂ : List (String × α)) (k : String)
    (v : α) (h : pyget l₁ k = some v) : pyget (l₁ ++ l₂) k = some v := by
  induction l₁ with
  | nil => simp [pyget] at h
  | cons hd tl ih =>
      obtain ⟨k₀, v₀⟩ := hd
      by_cases h₀ : k₀ = k
      · simp_all [pyget]
      · simp_all [pyget]

theorem pyget_append_none {α : Type} (l₁ l₂ : List (String × α)) (k : String)
    (h : pyget l₁ k = none) : pyget (l₁ ++ l₂) k = pyget l₂ k := by
  induction l₁ with
  | nil => simp [pyget]
  | cons hd tl ih =>
      obtain ⟨k₀, v₀⟩ := hd
      by_cases h₀ : k₀ = k
      · simp_all [pyget]
      · simp_all [pyget]

theorem pyset_isEmpty {α : Type} (l : List (String × α)) (k : String) (v : α) :
    (pyset l k v).isEmpty = false := by
  cases hh : pyset l k v with
  | nil => exact absurd hh (pyset_ne_nil _ _ _)
  | cons a b => rfl

/-! ## Preference index lemmas (claim C8) -/

theorem getD_pyset (inner : List (String × Int)) (rc c : String) (v : Int) :
    (pyget (pyset inner rc v) c).getD 0 =
      if rc = c then v else (pyget inner c).getD 0 := by
  by_cases hc : rc = c
  · subst hc; simp [pyget_pyset_self]
  · simp [hc, pyget_pyset_ne inner rc c v (fun hh => hc hh.symm)]

theorem get_pref_pyset_self (p : Dict2) (rs c : String)
    (X : List (String × Int)) (hX : X.isEmpty = false) :
    get_pref (pyset p rs X) rs c = (pyget X c).getD 0 := by
  simp [get_pref, pyget_pyset_self, hX]

theorem get_pref_step (p : Dict2) (r : PrefRow) (s c : String) :
    get_pref (read_prefs_step p r) s c =
      get_pref p s c + (if r.1 = s ∧ r.2.1 = c then r.2.2 else 0) := by
  obtain ⟨rs, rc, rp⟩ := r
  by_cases hs : s = rs
  · subst hs
    cases hp : pyget p s with
    | none =>
        simp only [read_prefs_step, hp, eq_self_iff_true, true_and]
        rw [get_pref_pyset_self p s c [(rc, rp)] rfl]
        by_cases hc : rc = c <;> simp [get_pref, hp, pyget, hc]
    | some inner =>
        by_cases he : inner.isEmpty
        · simp only [read_prefs_step, hp, he, if_true, eq_self_iff_true, true_and]
          rw [get_pref_pyset_self p s c [(rc, rp)] rfl]
          by_cases hc : rc = c <;> simp [get_pref, hp, he, pyget, hc]
        · have he' : inner.isEmpty = false := by
            rwa [Bool.not_eq_true] at he
          have hval : get_pref p s c = (pyget inner c).getD 0 := by
            simp [get_pref, hp, he']
          cases hic : pyget inner rc with
          | none =>
              simp only [read_prefs_step, hp, he', Bool.false_eq_true, if_false,
                hic, eq_self_iff_true, true_and]
              rw [get_pref_pyset_self p s c _ (pyset_isEmpty _ _ _), getD_pyset,
                hval]
              by_cases hc : rc = c
              · subst hc; simp [hic]
              · simp [hc]
          | some old =>
              by_cases hold : old = 0
              · simp only [read_prefs_step, hp, he', Bool.false_eq_true, if_false,
                  hic, hold, if_true, eq_self_iff_true, true_and]
                rw [get_pref_pyset_self p s c _ (pyset_isEmpty _ _ _), getD_pyset,
                  hval]
                by_cases hc : rc = c
                · subst hc; simp [hic, hold]
                · simp [hc]
              · simp only [read_prefs_step, hp, he', Bool.false_eq_true, if_false,
                  hic, hold, eq_self_iff_true, true_and]
                rw [get_pref_pyset_self p s c _ (pyset_isEmpty _ _ _), getD_pyset,
                  hval]
                by_cases hc : rc = c
                · subst hc; simp [hic, Int.add_comm]
                · simp [hc]
  · have hcond : ¬(rs = s ∧ rc = c) := fun hh => hs hh.1.symm
    have hget : ∀ X, get_pref (pyset p rs X) s c = get_pref p s c := by
      intro X
      simp [get_pref, pyget_pyset_ne p rs s X hs]
    rw [if_neg hcond, Int.add_zero]
    cases hp : pyget p rs with
    | none =>
        simp only [read_prefs_step, hp]
        exact hget _
    | some inner =>
        by_cases he : inner.isEmpty
        · simp only [read_prefs_step, hp, he, if_true]
          exact hget _
        · have he' : inner.isEmpty = false := by
            rwa [Bool.not_eq_true] at he
          cases hic : pyget inner rc with
          | none =>
              simp only [read_prefs_step, hp, he', Bool.false_eq_true, if_false,
                hic]
              exact hget _
          | some old =>
              by_cases hold : old = 0
              · simp only [read_prefs_step, hp, he', Bool.false_eq_true,
                  if_false, hic, hold, if_true]
                exact hget _
              · simp only [read_prefs_step, hp, he', Bool.false_eq_true,
                  if_false, hic, hold]
                exact hget _

theorem get_pref_foldl (rows : List PrefRow) (p : Dict2) (s c : String) :
    get_pref (rows.foldl read_prefs_step p) s c =
      get_pref p s c + pref_row_sum rows s c := by
  induction rows generalizing p with
  | nil => simp [pref_row_sum]
  | cons r rest ih =>
      simp only [List.foldl_cons, pref_row_sum]
      rw [ih, get_pref_step]
      ring

/-- C8: building the preference table from a row sequence sums the scores of
repeated `(scode, cscode)` pairs (the zero-score assignment branch of the
truthiness test coincides with summation), and looking up any pair returns the
summed score — in particular `0` when the school or the pair is absent, since
the sum over no matching rows is `0`; `get_pref` is total, so no lookup
raises. -/
theorem read_prefs_lookup_sums (rows : List PrefRow) (s c : String) :
    get_pref (read_prefs rows) s c = pref_row_sum rows s c := by
  have h := get_pref_foldl rows [] s c
  simpa [read_prefs, get_pref, pyget] using h

/-! ## Candidate selector lemmas (claims C6, C7, C9, C10) -/

theorem isEligible_iff (hav : ℚ → ℚ → ℚ → ℚ → ℚ) (prefs : Dict2)
    (school : School) (thr : ℚ) (c : Center) :
    isEligible hav prefs school thr c = true ↔
      school.scode ≠ c.cscode ∧
        hav school.lat school.long c.lat c.long ≤ thr ∧
        get_pref prefs school.scode c.cscode > PREF_CUTOFF := by
  by_cases hself : school.scode = c.cscode
  · simp [isEligible, hself]
  · simp [isEligible, hself]

theorem cwdStep_fst_eq (hav : ℚ → ℚ → ℚ → ℚ → ℚ) (prefs : Dict2)
    (school : School) (thr : ℚ) (acc : List Center × Option (ℚ × Center))
    (c : Center) :
    (cwdStep hav prefs school thr acc c).1 =
      if isEligible hav prefs school thr c then acc.1 ++ [c] else acc.1 := by
  by_cases hself : school.scode = c.cscode
  · simp [cwdStep, isEligible, hself]
  · by_cases hcond : hav school.lat school.long c.lat c.long ≤ thr ∧
        get_pref prefs school.scode c.cscode > PREF_CUTOFF
    · simp [cwdStep, isEligible, hself, hcond]
    · simp [cwdStep, isEligible, hself, hcond]

theorem cwdStep_snd_eq (hav : ℚ → ℚ → ℚ → ℚ → ℚ) (prefs : Dict2)
    (school : School) (thr : ℚ) (acc : List Center × Option (ℚ × Center))
    (c : Center) :
    (cwdStep hav prefs school thr acc c).2 = nearestStep hav school acc.2 c := by
  by_cases hself : school.scode = c.cscode
  · simp [cwdStep, nearestStep, hself]
  · cases hacc : acc.2 with
    | none => simp [cwdStep, nearestStep, hself, hacc]
    | some p =>
        obtain ⟨nd, nc⟩ := p
        by_cases hlt : hav school.lat school.long c.lat c.long < nd
        · simp [cwdStep, nearestStep, hself, hacc, hlt]
        · simp [cwdStep, nearestStep, hself, hacc, hlt]

theorem cwd_foldl_fst (hav : ℚ → ℚ → ℚ → ℚ → ℚ) (prefs : Dict2)
    (school : School) (thr : ℚ) :
    ∀ (l : List Center) (acc : List Center × Option (ℚ × Center)),
      (l.foldl (cwdStep hav prefs school thr) acc).1 =
        acc.1 ++ l.filter (isEligible hav prefs school thr) := by
  intro l
  induction l with
  | nil => intro acc; simp
  | cons c t ih =>
      intro acc
      rw [List.foldl_cons, ih, cwdStep_fst_eq, List.filter_cons]
      by_cases he : isEligible hav prefs school thr c
      · simp [he]
      · simp [he]

theorem cwd_foldl_snd (hav : ℚ → ℚ → ℚ → ℚ → ℚ) (prefs : Dict2)
    (school : School) (thr : ℚ) :
    ∀ (l : List Center) (acc : List Center × Option (ℚ × Center)),
      (l.foldl (cwdStep hav prefs school thr) acc).2 =
        l.foldl (nearestStep hav school) acc.2 := by
  intro l
  induction l with
  | nil => intro acc; simp
  | cons c t ih =>
      intro acc
      rw [List.foldl_cons, ih, cwdStep_snd_eq, List.foldl_cons]

/-- The `within_distance` list is exactly the input filtered by the line-85
eligibility test (with the line-78 self-exclusion). -/
theorem within_distance_eq_filter (hav : ℚ → ℚ → ℚ → ℚ → ℚ) (prefs : Dict2)
    (school : School) (centers : List Center) (thr : ℚ) :
    within_distance hav prefs school centers thr =
      centers.filter (isEligible hav prefs school thr) := by
  unfold within_distance
  rw [cwd_foldl_fst]
  simp

theorem nearest_center_eq_fold (hav : ℚ → ℚ → ℚ → ℚ → ℚ) (prefs : Dict2)
    (school : School) (centers : List Center) (thr : ℚ) :
    nearest_center hav prefs school centers thr =
      centers.foldl (nearestStep hav school) none := by
  unfold nearest_center
  rw [cwd_foldl_snd]

theorem nearestFold_isSome (hav : ℚ → ℚ → ℚ → ℚ → ℚ) (school : School) :
    ∀ (l : List Center) (nr : Option (ℚ × Center)),
      (nr.isSome = true ∨ ∃ c ∈ l, school.scode ≠ c.cscode) →
      (l.foldl (nearestStep hav school) nr).isSome = true := by
  intro l
  induction l with
  | nil =>
      intro nr h
      rcases h with h | ⟨c, hc, _⟩
      · simpa using h
      · simp at hc
  | cons c t ih =>
      intro nr h
      rw [List.foldl_cons]
      by_cases hself : school.scode = c.cscode
      · have hstep : nearestStep hav school nr c = nr := by
          simp [nearestStep, hself]
        rw [hstep]
        apply ih
        rcases h with h | ⟨c', hc', hns⟩
        · exact Or.inl h
        · rcases List.mem_cons.mp hc' with h₁ | h₁
          · exact absurd (h₁ ▸ hself) hns
          · exact Or.inr ⟨c', h₁, hns⟩
      · apply ih
        left
        cases nr with
        | none => simp [nearestStep, hself]
        | some p =>
            obtain ⟨nd, nc⟩ := p
            by_cases hlt : hav school.lat school.long c.lat c.long < nd
            · simp [nearestStep, hself, hlt]
            · simp [nearestStep, hself, hlt]

theorem nearestFold_spec (hav : ℚ → ℚ → ℚ → ℚ → ℚ) (school : School) :
    ∀ (l : List Center) (nr : Option (ℚ × Center)) (d : ℚ) (c : Center),
      l.foldl (nearestStep hav school) nr = some (d, c) →
      (nr = some (d, c) ∨
        (c ∈ l ∧ school.scode ≠ c.cscode ∧
          d = hav school.lat school.long c.lat c.long)) ∧
      (∀ d₀ c₀, nr = some (d₀, c₀) → d ≤ d₀) ∧
      (∀ c' ∈ l, school.scode ≠ c'.cscode →
        d ≤ hav school.lat school.long c'.lat c'.long) := by
  intro l
  induction l with
  | nil =>
      intro nr d c h
      simp only [List.foldl_nil] at h
      refine ⟨Or.inl h, ?_, ?_⟩
      · intro d₀ c₀ h₀
        rw [h] at h₀
        cases h₀
        exact le_refl d
      · intro c' hc'
        simp at hc'
  | cons c₁ t ih =>
      intro nr d c h
      rw [List.foldl_cons] at h
      obtain ⟨hsrc, hle, hmin⟩ := ih (nearestStep hav school nr c₁) d c h
      by_cases hself : school.scode = c₁.cscode
      · have hstep : nearestStep hav school nr c₁ = nr := by
          simp [nearestStep, hself]
        rw [hstep] at hsrc hle
        refine ⟨?_, hle, ?_⟩
        · rcases hsrc with h₁ | ⟨h₁, h₂, h₃⟩
          · exact Or.inl h₁
          · exact Or.inr ⟨List.mem_cons_of_mem _ h₁, h₂, h₃⟩
        · intro c' hc' hns
          rcases List.mem_cons.mp hc' with h₁ | h₁
          · exact absurd (h₁ ▸ hself) hns
          · exact hmin c' h₁ hns
      · cases hnr : nr with
        | none =>
            have hstep : nearestStep hav school nr c₁ =
                some (hav school.lat school.long c₁.lat c₁.long, c₁) := by
              simp [nearestStep, hself, hnr]
            rw [hstep] at hsrc hle
            have hd₁ : d ≤ hav school.lat school.long c₁.lat c₁.long :=
              hle _ _ rfl
            refine ⟨?_, ?_, ?_⟩
            · rcases hsrc with h₁ | ⟨h₁, h₂, h₃⟩
              · cases h₁
                exact Or.inr ⟨List.mem_cons_self _ _, hself, rfl⟩
              · exact Or.inr ⟨List.mem_cons_of_mem _ h₁, h₂, h₃⟩
            · intro d₀ c₀ h₀
              exact Option.noConfusion h₀
            · intro c' hc' hns
              rcases List.mem_cons.mp hc' with h₁ | h₁
              · exact h₁ ▸ hd₁
              · exact hmin c' h₁ hns
        | some p =>
            obtain ⟨nd, nc⟩ := p
            by_cases hlt : hav school.lat school.long c₁.lat c₁.long < nd
            · have hstep : nearestStep hav school nr c₁ =
                  some (hav school.lat school.long c₁.lat c₁.long, c₁) := by
                simp [nearestStep, hself, hnr, hlt]
              rw [hstep] at hsrc hle
              have hd₁ : d ≤ hav school.lat school.long c₁.lat c₁.long :=
                hle _ _ rfl
              refine ⟨?_, ?_, ?_⟩
              · rcases hsrc with h₁ | ⟨h₁, h₂, h₃⟩
                · cases h₁
                  exact Or.inr ⟨List.mem_cons_self _ _, hself, rfl⟩
                · exact Or.inr ⟨List.mem_cons_of_mem _ h₁, h₂, h₃⟩
              · intro d₀ c₀ h₀
                cases h₀
                exact le_of_lt (lt_of_le_of_lt hd₁ hlt)
              · intro c' hc' hns
                rcases List.mem_cons.mp hc' with h₁ | h₁
                · exact h₁ ▸ hd₁
                · exact hmin c' h₁ hns
            · have hstep : nearestStep hav school nr c₁ = some (nd, nc) := by
                simp [nearestStep, hself, hnr, hlt]
              rw [hstep] at hsrc hle
              have hdnd : d ≤ nd := hle _ _ rfl
              refine ⟨?_, ?_, ?_⟩
              · rcases hsrc with h₁ | ⟨h₁, h₂, h₃⟩
                · exact Or.inl h₁
                · exact Or.inr ⟨List.mem_cons_of_mem _ h₁, h₂, h₃⟩
              · intro d₀ c₀ h₀
                cases h₀
                exact hdnd
              · intro c' hc' hns
                rcases List.mem_cons.mp hc' with h₁ | h₁
                · exact h₁ ▸ le_trans hdnd (le_of_not_lt hlt)
                · exact hmin c' h₁ hns

/-- The candidate list of `centers_within_distance` is never the empty Python
list: either the sorted eligible list (nonempty) or the singleton
`[nearest_center]`. -/
theorem cwd_ne_nil (hav : ℚ → ℚ → ℚ → ℚ → ℚ) (rkey : Center → ℚ)
    (prefs : Dict2) (school : School) (centers : List Center) (thr : ℚ) :
    centers_within_distance hav rkey prefs school centers thr ≠ [] := by
  unfold centers_within_distance
  by_cases hw : within_distance hav prefs school centers thr = []
  · simp [hw]
  · rw [if_neg hw]
    intro hmap
    rw [List.map_eq_nil_iff] at hmap
    have hperm := List.perm_insertionSort (fun a b => rkey a ≤ rkey b)
      (within_distance hav prefs school centers thr)
    rw [hmap] at hperm
    exact hw (List.perm_nil.mp hperm.symm)

/-- Every actual center in the candidate list is non-self for the school. -/
theorem cwd_mem_nonself (hav : ℚ → ℚ → ℚ → ℚ → ℚ) (rkey : Center → ℚ)
    (prefs : Dict2) (school : School) (centers : List Center) (thr : ℚ)
    (oc : Option Center)
    (hmem : oc ∈ centers_within_distance hav rkey prefs school centers thr)
    (c : Center) (hoc : oc = some c) : school.scode ≠ c.cscode := by
  unfold centers_within_distance at hmem
  by_cases hw : within_distance hav prefs school centers thr = []
  · rw [if_pos hw] at hmem
    rw [List.mem_singleton, hoc] at hmem
    cases hnc : nearest_center hav prefs school centers thr with
    | none =>
        rw [hnc] at hmem
        simp at hmem
    | some p =>
        obtain ⟨nd, nc⟩ := p
        rw [hnc] at hmem
        simp only [Option.map_some'] at hmem
        have hcnc : c = nc := by
          injection hmem
        subst hcnc
        rw [nearest_center_eq_fold] at hnc
        obtain ⟨hsrc, _, _⟩ := nearestFold_spec hav school centers none nd c hnc
        rcases hsrc with hbad | ⟨_, hns, _⟩
        · exact Option.noConfusion hbad
        · exact hns
  · rw [if_neg hw] at hmem
    subst hoc
    rcases List.mem_map.mp hmem with ⟨c', hc', heq⟩
    have hcc : c' = c := by injection heq
    subst hcc
    have hperm := List.perm_insertionSort (fun a b => rkey a ≤ rkey b)
      (within_distance hav prefs school centers thr)
    have hin : c' ∈ within_distance hav prefs school centers thr :=
      hperm.mem_iff.mp hc'
    rw [within_distance_eq_filter] at hin
    have := List.of_mem_filter hin
    exact ((isEligible_iff hav prefs school thr c').mp this).1

/-! ## Ledger lemmas -/

theorem dict_sum_pyset_some (d : List (String × Int)) (c : String) (old v : Int)
    (h : pyget d c = some old) : dict_sum (pyset d c v) = dict_sum d - old + v := by
  induction d with
  | nil => simp [pyget] at h
  | cons hd tl ih =>
      obtain ⟨k, w⟩ := hd
      by_cases hk : k = c
      · subst hk
        simp [pyget] at h
        subst h
        simp only [pyset, eq_self_iff_true, if_true, dict_sum, List.map_cons,
          List.sum_cons]
        ring
      · simp only [pyget, hk, if_false] at h
        simp only [pyset, hk, if_false, dict_sum, List.map_cons, List.sum_cons]
        have := ih h
        simp only [dict_sum] at this
        rw [this]
        ring

theorem dict_sum_pyset_none (d : List (String × Int)) (c : String) (v : Int)
    (h : pyget d c = none) : dict_sum (pyset d c v) = dict_sum d + v := by
  induction d with
  | nil => simp [pyset, dict_sum]
  | cons hd tl ih =>
      obtain ⟨k, w⟩ := hd
      by_cases hk : k = c
      · subst hk
        simp [pyget] at h
      · simp only [pyget, hk, if_false] at h
        simp only [pyset, hk, if_false, dict_sum, List.map_cons, List.sum_cons]
        have := ih h
        simp only [dict_sum] at this
        rw [this]
        ring

theorem sum_out_allocate_self (a : Dict2) (s c : String) (g : Int) :
    sum_out (allocate a s c g) s = sum_out a s + g := by
  cases hp : pyget a s with
  | none =>
      simp only [allocate, hp]
      simp [sum_out, pyget_pyset_self, hp, dict_sum]
  | some inner =>
      cases hic : pyget inner c with
      | none =>
          simp only [allocate, hp, hic]
          simp only [sum_out, pyget_pyset_self, hp, Option.getD_some]
          exact dict_sum_pyset_none inner c g hic
      | some old =>
          simp only [allocate, hp, hic]
          simp only [sum_out, pyget_pyset_self, hp, Option.getD_some]
          rw [dict_sum_pyset_some inner c old (old + g) hic]
          ring

theorem sum_out_allocate_ne (a : Dict2) (s c : String) (g : Int) (s' : String)
    (h : s' ≠ s) : sum_out (allocate a s c g) s' = sum_out a s' := by
  cases hp : pyget a s with
  | none =>
      simp only [allocate, hp]
      simp [sum_out, pyget_pyset_ne a s s' _ h]
  | some inner =>
      cases hic : pyget inner c with
      | none =>
          simp only [allocate, hp, hic]
          simp [sum_out, pyget_pyset_ne a s s' _ h]
      | some old =>
          simp only [allocate, hp, hic]
          simp [sum_out, pyget_pyset_ne a s s' _ h]

theorem pyget2_allocate_self (a : Dict2) (s c : String) (g : Int) :
    pyget2 (allocate a s c g) s c = some ((pyget2 a s c).getD 0 + g) := by
  cases hp : pyget a s with
  | none =>
      simp only [allocate, hp]
      simp [pyget2, pyget_pyset_self, hp, pyget]
  | some inner =>
      cases hic : pyget inner c with
      | none =>
          simp only [allocate, hp, hic]
          simp [pyget2, pyget_pyset_self, hp, hic]
      | some old =>
          simp only [allocate, hp, hic]
          simp [pyget2, pyget_pyset_self, hp, hic]

theorem pyget2_allocate_other (a : Dict2) (s c : String) (g : Int)
    (s' c' : String) (h : ¬(s' = s ∧ c' = c)) :
    pyget2 (allocate a s c g) s' c' = pyget2 a s' c' := by
  by_cases hs : s' = s
  · subst hs
    have hc : c' ≠ c := fun hh => h ⟨rfl, hh⟩
    cases hp : pyget a s' with
    | none =>
        simp only [allocate, hp]
        simp [pyget2, pyget_pyset_self, hp, pyget, Ne.symm hc]
    | some inner =>
        cases hic : pyget inner c with
        | none =>
            simp only [allocate, hp, hic]
            simp [pyget2, pyget_pyset_self, hp,
              pyget_pyset_ne inner c c' _ hc]
        | some old =>
            simp only [allocate, hp, hic]
            simp [pyget2, pyget_pyset_self, hp,
              pyget_pyset_ne inner c c' _ hc]
  · cases hp : pyget a s with
    | none =>
        simp only [allocate, hp]
        simp [pyget2, pyget_pyset_ne a s s' _ hs]
    | some inner =>
        cases hic : pyget inner c with
        | none =>
            simp only [allocate, hp, hic]
            simp [pyget2, pyget_pyset_ne a s s' _ hs]
        | some old =>
            simp only [allocate, hp, hic]
            simp [pyget2, pyget_pyset_ne a s s' _ hs]

theorem pyget2_allocate_isSome (a : Dict2) (s c : String) (g : Int)
    (s' c' : String) (h : (pyget2 (allocate a s c g) s' c').isSome = true) :
    (s' = s ∧ c' = c) ∨ (pyget2 a s' c').isSome = true := by
  by_cases hsc : s' = s ∧ c' = c
  · exact Or.inl hsc
  · rw [pyget2_allocate_other a s c g s' c' hsc] at h
    exact Or.inr h

theorem pyget_keys_ne {α : Type} (l : List (String × α)) (k : String)
    (h : ∀ e ∈ l, e.1 ≠ k) : pyget l k = none := by
  induction l with
  | nil => rfl
  | cons hd tl ih =>
      obtain ⟨k₀, v₀⟩ := hd
      have hne : k₀ ≠ k := h (k₀, v₀) (List.mem_cons_self _ _)
      simp only [pyget, hne, if_false]
      exact ih (fun e he => h e (List.mem_cons_of_mem _ he))

/-! ## Candidate-loop lemmas (lines 130-138) -/

theorem centerLoop_spec (school : School) (pc : Int) :
    ∀ (l : List (Option Center)) (alloc : Dict2) (students : Int)
      (alloc' : Dict2) (students' : Int),
      centerLoop school pc alloc students l = some (alloc', students') →
      sum_out alloc' school.scode =
        sum_out alloc school.scode + (students - students') ∧
      (∀ sc, sc ≠ school.scode → sum_out alloc' sc = sum_out alloc sc) ∧
      (0 ≤ students → 0 ≤ students' ∧ students' ≤ students) := by
  intro l
  induction l with
  | nil =>
      intro alloc students alloc' students' h
      simp only [centerLoop, Option.some_inj, Prod.mk.injEq] at h
      obtain ⟨h₁, h₂⟩ := h
      subst h₁; subst h₂
      refine ⟨by ring, fun sc _ => rfl, fun h0 => ⟨h0, le_refl _⟩⟩
  | cons oc rest ih =>
      intro alloc students alloc' students' h
      cases oc with
      | none => simp [centerLoop] at h
      | some center =>
          by_cases hguard :
              is_allocated alloc center.cscode school.scode = true
          · simp only [centerLoop, hguard, if_true] at h
            exact ih alloc students alloc' students' h
          · by_cases hpos : 0 < min (min students pc) center.capacity
            · simp only [centerLoop, hguard, Bool.false_eq_true, if_false,
                hpos, if_true] at h
              obtain ⟨hsum, hframe, hbound⟩ :=
                ih (allocate alloc school.scode center.cscode
                    (min (min students pc) center.capacity))
                  (students - min (min students pc) center.capacity)
                  alloc' students' h
              refine ⟨?_, ?_, ?_⟩
              · rw [hsum, sum_out_allocate_self]
                ring
              · intro sc hsc
                rw [hframe sc hsc, sum_out_allocate_ne _ _ _ _ _ hsc]
              · intro h0
                have hgle : min (min students pc) center.capacity ≤ students :=
                  le_trans (min_le_left _ _) (min_le_left _ _)
                obtain ⟨hb₁, hb₂⟩ := hbound (by omega)
                exact ⟨hb₁, by omega⟩
            · simp only [centerLoop, hguard, Bool.false_eq_true, if_false,
                hpos, if_false] at h
              exact ih alloc students alloc' students' h

theorem centerLoop_noself (school : School) (pc : Int) :
    ∀ (l : List (Option Center)) (alloc : Dict2) (students : Int)
      (alloc' : Dict2) (students' : Int),
      centerLoop school pc alloc students l = some (alloc', students') →
      (∀ oc ∈ l, ∀ c : Center, oc = some c → school.scode ≠ c.cscode) →
      (∀ S C, (pyget2 alloc S C).isSome = true → S ≠ C) →
      ∀ S C, (pyget2 alloc' S C).isSome = true → S ≠ C := by
  intro l
  induction l with
  | nil =>
      intro alloc students alloc' students' h hcand hpred
      simp only [centerLoop, Option.some_inj, Prod.mk.injEq] at h
      obtain ⟨h₁, _⟩ := h
      subst h₁
      exact hpred
  | cons oc rest ih =>
      intro alloc students alloc' students' h hcand hpred
      cases oc with
      | none => simp [centerLoop] at h
      | some center =>
          have hns : school.scode ≠ center.cscode :=
            hcand (some center) (List.mem_cons_self _ _) center rfl
          have hcand' : ∀ oc ∈ rest, ∀ c : Center, oc = some c →
              school.scode ≠ c.cscode :=
            fun oc hoc => hcand oc (List.mem_cons_of_mem _ hoc)
          by_cases hguard :
              is_allocated alloc center.cscode school.scode = true
          · simp only [centerLoop, hguard, if_true] at h
            exact ih alloc students alloc' students' h hcand' hpred
          · by_cases hpos : 0 < min (min students pc) center.capacity
            · simp only [centerLoop, hguard, Bool.false_eq_true, if_false,
                hpos, if_true] at h
              refine ih _ _ alloc' students' h hcand' ?_
              intro S C hin
              rcases pyget2_allocate_isSome _ _ _ _ _ _ hin with ⟨hS, hC⟩ | hold
              · subst hS; subst hC
                exact hns
              · exact hpred S C hold
            · simp only [centerLoop, hguard, Bool.false_eq_true, if_false,
                hpos, if_false] at h
              exact ih alloc students alloc' students' h hcand' hpred

/-! ## School-loop lemmas (lines 123-142) -/

theorem schoolLoop_frame (hav : ℚ → ℚ → ℚ → ℚ → ℚ)
    (rkey : School → Center → ℚ) (prefs : Dict2) (centers : List Center) :
    ∀ (l : List School) (st st' : RunState),
      schoolLoop hav rkey prefs centers st l = some st' →
      (∀ sc, sc ∉ l.map School.scode →
        sum_out st'.allocations sc = sum_out st.allocations sc) ∧
      (∃ Δ, st'.reported = st.reported ++ Δ ∧
        ∀ e ∈ Δ, e.1 ∈ l.map School.scode) := by
  intro l
  induction l with
  | nil =>
      intro st st' h
      simp only [schoolLoop, Option.some_inj] at h
      subst h
      exact ⟨fun sc _ => rfl, [], by simp, by simp⟩
  | cons school rest ih =>
      intro st st' h
      cases hcl : centerLoop school (min school.count MIN_STUDENT_IN_CENTER)
          st.allocations school.count
          (centers_within_distance hav (rkey school) prefs school centers
            PREF_DISTANCE_THRESHOLD) with
      | none =>
          simp only [schoolLoop, hcl] at h
          exact Option.noConfusion h
      | some p =>
          obtain ⟨alloc, students⟩ := p
          obtain ⟨hsum, hframe, hbnd⟩ :=
            centerLoop_spec school (min school.count MIN_STUDENT_IN_CENTER) _
              st.allocations school.count alloc students hcl
          by_cases hpos : 0 < students
          · simp only [schoolLoop, hcl, hpos, if_true] at h
            obtain ⟨hf, Δ, hΔeq, hΔkeys⟩ := ih _ st' h
            refine ⟨?_, [(school.scode, students)] ++ Δ, ?_, ?_⟩
            · intro sc hsc
              rw [List.map_cons, List.mem_cons] at hsc
              push_neg at hsc
              rw [hf sc hsc.2]
              exact hframe sc hsc.1
            · rw [hΔeq]
              simp
            · intro e he
              rcases List.mem_append.mp he with h₁ | h₁
              · rw [List.mem_singleton.mp h₁]
                simp
              · rw [List.map_cons, List.mem_cons]
                exact Or.inr (hΔkeys e h₁)
          · simp only [schoolLoop, hcl, hpos, if_false] at h
            obtain ⟨hf, Δ, hΔeq, hΔkeys⟩ := ih _ st' h
            refine ⟨?_, Δ, hΔeq, ?_⟩
            · intro sc hsc
              rw [List.map_cons, List.mem_cons] at hsc
              push_neg at hsc
              rw [hf sc hsc.2]
              exact hframe sc hsc.1
            · intro e he
              rw [List.map_cons, List.mem_cons]
              exact Or.inr (hΔkeys e he)

theorem schoolLoop_conservation (hav : ℚ → ℚ → ℚ → ℚ → ℚ)
    (rkey : School → Center → ℚ) (prefs : Dict2) (centers : List Center) :
    ∀ (l : List School) (st st' : RunState),
      schoolLoop hav rkey prefs centers st l = some st' →
      (l.map School.scode).Nodup →
      (∀ s ∈ l, 0 ≤ s.count) →
      ∀ s ∈ l, sum_out st.allocations s.scode = 0 →
        pyget st.reported s.scode = none →
        sum_out st'.allocations s.scode +
          reported_shortfall st'.reported s.scode = s.count := by
  intro l
  induction l with
  | nil =>
      intro st st' _ _ _ s hs
      simp at hs
  | cons school rest ih =>
      intro st st' h hnd hcnt s hs hsum0 hrep0
      rw [List.map_cons, List.nodup_cons] at hnd
      obtain ⟨hnd₁, hnd₂⟩ := hnd
      cases hcl : centerLoop school (min school.count MIN_STUDENT_IN_CENTER)
          st.allocations school.count
          (centers_within_distance hav (rkey school) prefs school centers
            PREF_DISTANCE_THRESHOLD) with
      | none =>
          simp only [schoolLoop, hcl] at h
          exact Option.noConfusion h
      | some p =>
          obtain ⟨alloc, students⟩ := p
          obtain ⟨hsum, hframe, hbnd⟩ :=
            centerLoop_spec school (min school.count MIN_STUDENT_IN_CENTER) _
              st.allocations school.count alloc students hcl
          rcases List.mem_cons.mp hs with hseq | hsrest
          · subst hseq
            obtain ⟨hb₁, hb₂⟩ := hbnd (hcnt s (List.mem_cons_self _ _))
            by_cases hpos : 0 < students
            · simp only [schoolLoop, hcl, hpos, if_true] at h
              obtain ⟨hf, Δ, hΔeq, hΔkeys⟩ :=
                schoolLoop_frame hav rkey prefs centers rest _ st' h
              have halloc : sum_out st'.allocations s.scode =
                  s.count - students := by
                rw [hf s.scode hnd₁]
                simp only []
                rw [hsum, hsum0]
                ring
              have hrep : reported_shortfall st'.reported s.scode = students := by
                unfold reported_shortfall
                rw [hΔeq]
                simp only []
                rw [List.append_assoc,
                  pyget_append_none st.reported _ s.scode hrep0]
                rw [pyget_append_some [(s.scode, students)] Δ s.scode students
                  (by simp [pyget])]
                rfl
              rw [halloc, hrep]
              ring
            · have hstud : students = 0 := by omega
              simp only [schoolLoop, hcl, hpos, if_false] at h
              obtain ⟨hf, Δ, hΔeq, hΔkeys⟩ :=
                schoolLoop_frame hav rkey prefs centers rest _ st' h
              have halloc : sum_out st'.allocations s.scode = s.count := by
                rw [hf s.scode hnd₁]
                simp only []
                rw [hsum, hsum0, hstud]
                ring
              have hrep : reported_shortfall st'.reported s.scode = 0 := by
                unfold reported_shortfall
                rw [hΔeq]
                simp only []
                rw [pyget_append_none st.reported _ s.scode hrep0]
                rw [pyget_keys_ne Δ s.scode
                  (fun e he heq => hnd₁ (heq ▸ hΔkeys e he))]
                rfl
              rw [halloc, hrep]
              ring
          · have hscode : s.scode ∈ rest.map School.scode :=
              List.mem_map_of_mem School.scode hsrest
            have hne : s.scode ≠ school.scode := by
              intro heq
              exact hnd₁ (heq ▸ hscode)
            by_cases hpos : 0 < students
            · simp only [schoolLoop, hcl, hpos, if_true] at h
              refine ih _ st' h hnd₂
                (fun s' hs' => hcnt s' (List.mem_cons_of_mem _ hs')) s hsrest
                ?_ ?_
              · simp only []
                rw [hframe s.scode hne, hsum0]
              · simp only []
                rw [pyget_append_none st.reported _ s.scode hrep0]
                simp [pyget, Ne.symm hne]
            · simp only [schoolLoop, hcl, hpos, if_false] at h
              refine ih _ st' h hnd₂
                (fun s' hs' => hcnt s' (List.mem_cons_of_mem _ hs')) s hsrest
                ?_ ?_
              · simp only []
                rw [hframe s.scode hne, hsum0]
              · simp only []
                exact hrep0

theorem schoolLoop_noself (hav : ℚ → ℚ → ℚ → ℚ → ℚ)
    (rkey : School → Center → ℚ) (prefs : Dict2) (centers : List Center) :
    ∀ (l : List School) (st st' : RunState),
      schoolLoop hav rkey prefs centers st l = some st' →
      (∀ S C, (pyget2 st.allocations S C).isSome = true → S ≠ C) →
      ∀ S C, (pyget2 st'.allocations S C).isSome = true → S ≠ C := by
  intro l
  induction l with
  | nil =>
      intro st st' h hpred
      simp only [schoolLoop, Option.some_inj] at h
      subst h
      exact hpred
  | cons school rest ih =>
      intro st st' h hpred
      cases hcl : centerLoop school (min school.count MIN_STUDENT_IN_CENTER)
          st.allocations school.count
          (centers_within_distance hav (rkey school) prefs school centers
            PREF_DISTANCE_THRESHOLD) with
      | none =>
          simp only [schoolLoop, hcl] at h
          exact Option.noConfusion h
      | some p =>
          obtain ⟨alloc, students⟩ := p
          have hcand : ∀ oc ∈ centers_within_distance hav (rkey school) prefs
              school centers PREF_DISTANCE_THRESHOLD,
              ∀ c : Center, oc = some c → school.scode ≠ c.cscode :=
            fun oc hoc c hoc' =>
              cwd_mem_nonself hav (rkey school) prefs school centers
                PREF_DISTANCE_THRESHOLD oc hoc c hoc'
          have hpred' : ∀ S C, (pyget2 alloc S C).isSome = true → S ≠ C :=
            centerLoop_noself school (min school.count MIN_STUDENT_IN_CENTER) _
              st.allocations school.count alloc students hcl hcand hpred
          by_cases hpos : 0 < students
          · simp only [schoolLoop, hcl, hpos, if_true] at h
            exact ih _ st' h hpred'
          · simp only [schoolLoop, hcl, hpos, if_false] at h
            exact ih _ st' h hpred'

/-! ## Claim C1 -/

/-- Claim C1 (refuted, code bug): the spec's capacity invariant does not hold.
The engine never tracks remaining capacity (line 134 caps each grant by the
declared `center.capacity` only, and nothing decrements anything), so two
schools of 15 students each commit 10 + 10 = 20 seats into center `C` whose
declared capacity is 12: the sum of allocations into `C` exceeds the declared
capacity and the spec's `remaining_capacity` quantity is negative. -/
theorem c1_capacity_invariant_violated :
    allocate_students_to_centers hav0 rkey1 [] [schoolA, schoolB] [centerC] =
      some ⟨[("A", [("C", 10)]), ("B", [("C", 10)])], 10,
        [("A", 5), ("B", 5)]⟩ ∧
    sum_into [("A", [("C", 10)]), ("B", [("C", 10)])] "C" = 20 ∧
    centerC.capacity < sum_into [("A", [("C", 10)]), ("B", [("C", 10)])] "C" := by
  refine ⟨by decide, by decide, by decide⟩

/-! ## Claim C2 -/

theorem centerLoopChecked_err (school : School) (pc : Int) (alloc : Dict2)
    (students : Int) (l : List (Option Center)) (hl : l ≠ []) :
    ∃ e, centerLoopChecked school pc alloc students l = Except.error e := by
  cases l with
  | nil => exact absurd rfl hl
  | cons oc rest =>
      cases oc with
      | none => exact ⟨_, rfl⟩
      | some center => exact ⟨_, rfl⟩

/-- Claim C2 (refuted, code bug): the engine never completes a run without
raising.  Every school's candidate list is nonempty and its first iteration
evaluates `center.distance_km` for the line-131 log row — an attribute no
statement ever assigns — raising `AttributeError` (or, for a `None` fallback
candidate, raising on `None.cscode`); and even a run over zero schools raises
`NameError` at line 145, which reads the never-defined global
`centers_remaining_cap`.  So the checked model errors on every input. -/
theorem c2_every_run_raises (hav : ℚ → ℚ → ℚ → ℚ → ℚ)
    (rkey : School → Center → ℚ) (prefs : Dict2) (schools : List School)
    (centers : List Center) :
    ∃ e, allocate_students_to_centers_checked hav rkey prefs schools centers =
      Except.error e := by
  cases schools with
  | nil => exact ⟨_, rfl⟩
  | cons school rest =>
      obtain ⟨e, he⟩ := centerLoopChecked_err school
        (min school.count MIN_STUDENT_IN_CENTER) [] school.count
        (centers_within_distance hav (rkey school) prefs school centers
          PREF_DISTANCE_THRESHOLD)
        (cwd_ne_nil hav (rkey school) prefs school centers
          PREF_DISTANCE_THRESHOLD)
      refine ⟨e, ?_⟩
      unfold allocate_students_to_centers_checked
      simp only [schoolLoopChecked, he]

/-! ## Claim C3 -/

/-- Claim C3 (refuted, code bug): the duplicate guard does not consult the
ledger keyed school-first.  `allocate` stores `allocations[scode][cscode]`,
but line 132 calls `is_allocated(center.cscode, school.scode)`, so the guard
reads `ledger[C][S]`: immediately after the pair `(S, C)` is allocated the
guard-as-called answers `false` (first two conjuncts), and consequently a
repeated occurrence of the same `(S, C)` pair is not skipped — processing the
same school twice against a single center doubles the committed count to 20
for a school of 10 students (third conjunct). -/
theorem c3_duplicate_guard_keyed_center_first :
    is_allocated (allocate [] "S" "C" 10) "C" "S" = false ∧
    is_allocated (allocate [] "S" "C" 10) "S" "C" = true ∧
    allocate_students_to_centers hav0 rkey1 [] [schoolD, schoolD] [centerE] =
      some ⟨[("S", [("C", 20)])], 0, []⟩ := by
  refine ⟨by decide, by decide, by decide⟩

/-! ## Claim C4 -/

/-- Claim C4 (refuted, code bug): the per-center grant is
`min(students_to_allocate, per_center, center.capacity)` with the *declared*
capacity (line 134), not the remaining capacity.  With 10 of center `C`'s 12
seats already granted to school `A`, the claimed formula for school `B` gives
`min(15, 10, 12 - 10) = 2`, but the code grants `15 - 5 = 10` seats. -/
theorem c4_grant_uses_declared_capacity :
    centerLoop schoolB (min schoolB.count MIN_STUDENT_IN_CENTER)
      [("A", [("C", 10)])] 15 [some centerC] =
      some ([("A", [("C", 10)]), ("B", [("C", 10)])], 5) ∧
    min (min (15 : Int) MIN_STUDENT_IN_CENTER)
      (centerC.capacity - sum_into [("A", [("C", 10)])] "C") = 2 ∧
    (15 : Int) - 5 ≠ 2 := by
  refine ⟨by decide, by decide, by decide⟩

/-! ## Claim C5 -/

/-- Claim C5 (confirmed): conservation.  For every school of a completed run
(schools having pairwise-distinct codes and non-negative counts), the seats
committed out of the school plus the shortfall reported for it at line 142
equal the school's student count. -/
theorem c5_conservation (hav : ℚ → ℚ → ℚ → ℚ → ℚ)
    (rkey : School → Center → ℚ) (prefs : Dict2) (schools : List School)
    (centers : List Center) (st : RunState)
    (hrun : allocate_students_to_centers hav rkey prefs schools centers =
      some st)
    (hnd : (schools.map School.scode).Nodup)
    (hcnt : ∀ s ∈ schools, 0 ≤ s.count)
    (s : School) (hs : s ∈ schools) :
    sum_out st.allocations s.scode +
      reported_shortfall st.reported s.scode = s.count :=
  schoolLoop_conservation hav rkey prefs centers schools ⟨[], 0, []⟩ st hrun
    hnd hcnt s hs rfl rfl

theorem c5_conservation_witness :
    sum_out [("A", [("C", 10)]), ("B", [("C", 10)])] "A" +
      reported_shortfall [("A", 5), ("B", 5)] "A" = 15 :=
  c5_conservation hav0 rkey1 [] [schoolA, schoolB] [centerC]
    ⟨[("A", [("C", 10)]), ("B", [("C", 10)])], 10, [("A", 5), ("B", 5)]⟩
    (by decide) (by decide)
    (by
      intro s hs
      simp only [List.mem_cons, List.not_mem_nil, or_false] at hs
      rcases hs with rfl | rfl
      · decide
      · decide)
    schoolA (by decide)

/-! ## Claim C6 -/

/-- Claim C6 (confirmed): fallback guarantee.  If at least one center has a
code different from the school's, the candidate list is nonempty and every
element is an actual center; and when no center passes the distance and
preference filters, the list is exactly the one-element list holding a
non-self input center whose distance is minimal among all non-self input
centers. -/
theorem c6_fallback_guarantee (hav : ℚ → ℚ → ℚ → ℚ → ℚ) (rkey : Center → ℚ)
    (prefs : Dict2) (school : School) (centers : List Center) (thr : ℚ)
    (hex : ∃ c ∈ centers, c.cscode ≠ school.scode) :
    (centers_within_distance hav rkey prefs school centers thr ≠ [] ∧
      ∀ oc ∈ centers_within_distance hav rkey prefs school centers thr,
        ∃ c, oc = some c) ∧
    (within_distance hav prefs school centers thr = [] →
      ∃ c, centers_within_distance hav rkey prefs school centers thr =
          [some c] ∧
        c ∈ centers ∧ c.cscode ≠ school.scode ∧
        ∀ c' ∈ centers, c'.cscode ≠ school.scode →
          hav school.lat school.long c.lat c.long ≤
            hav school.lat school.long c'.lat c'.long) := by
  obtain ⟨c₀, hc₀, hns₀⟩ := hex
  have hsome : (centers.foldl (nearestStep hav school) none).isSome = true :=
    nearestFold_isSome hav school centers none
      (Or.inr ⟨c₀, hc₀, Ne.symm hns₀⟩)
  obtain ⟨p, hp⟩ := Option.isSome_iff_exists.mp hsome
  obtain ⟨nd, nc⟩ := p
  obtain ⟨hsrc, _, hmin⟩ := nearestFold_spec hav school centers none nd nc hp
  have hnc : nc ∈ centers ∧ school.scode ≠ nc.cscode ∧
      nd = hav school.lat school.long nc.lat nc.long := by
    rcases hsrc with hbad | ⟨h₁, h₂, h₃⟩
    · exact Option.noConfusion hbad
    · exact ⟨h₁, h₂, h₃⟩
  refine ⟨⟨cwd_ne_nil hav rkey prefs school centers thr, ?_⟩, ?_⟩
  · intro oc hoc
    unfold centers_within_distance at hoc
    by_cases hw : within_distance hav prefs school centers thr = []
    · rw [if_pos hw, List.mem_singleton] at hoc
      rw [nearest_center_eq_fold, hp] at hoc
      exact ⟨nc, hoc⟩
    · rw [if_neg hw] at hoc
      obtain ⟨c, _, heq⟩ := List.mem_map.mp hoc
      exact ⟨c, heq.symm⟩
  · intro hw
    refine ⟨nc, ?_, hnc.1, Ne.symm hnc.2.1, ?_⟩
    · unfold centers_within_distance
      rw [if_pos hw, nearest_center_eq_fold, hp]
      rfl
    · intro c' hc' hns'
      exact hnc.2.2 ▸ hmin c' hc' (Ne.symm hns')

theorem c6_fallback_guarantee_witness :
    centers_within_distance hav3 rk1 [] schoolF [centerG]
        PREF_DISTANCE_THRESHOLD ≠ [] ∧
      ∀ oc ∈ centers_within_distance hav3 rk1 [] schoolF [centerG]
        PREF_DISTANCE_THRESHOLD, ∃ c, oc = some c :=
  (c6_fallback_guarantee hav3 rk1 [] schoolF [centerG]
    PREF_DISTANCE_THRESHOLD ⟨centerG, by decide, by decide⟩).1

/-! ## Claim C7 -/

/-- Claim C7 (confirmed): for a non-self input center, membership in the
eligible set (`within_distance`) holds exactly when the distance is at most
the threshold and the preference score strictly exceeds `PREF_CUTOFF`; a score
exactly equal to the cutoff excludes the center. -/
theorem c7_eligibility_iff (hav : ℚ → ℚ → ℚ → ℚ → ℚ) (prefs : Dict2)
    (school : School) (centers : List Center) (thr : ℚ) (c : Center)
    (hc : c ∈ centers) (hns : c.cscode ≠ school.scode) :
    (c ∈ within_distance hav prefs school centers thr ↔
      (hav school.lat school.long c.lat c.long ≤ thr ∧
        get_pref prefs school.scode c.cscode > PREF_CUTOFF)) ∧
    (get_pref prefs school.scode c.cscode = PREF_CUTOFF →
      c ∉ within_distance hav prefs school centers thr) := by
  have hiff : c ∈ within_distance hav prefs school centers thr ↔
      (hav school.lat school.long c.lat c.long ≤ thr ∧
        get_pref prefs school.scode c.cscode > PREF_CUTOFF) := by
    rw [within_distance_eq_filter]
    constructor
    · intro hin
      exact ((isEligible_iff hav prefs school thr c).mp
        (List.of_mem_filter hin)).2
    · intro hcond
      exact List.mem_filter.mpr
        ⟨hc, (isEligible_iff hav prefs school thr c).mpr
          ⟨Ne.symm hns, hcond⟩⟩
  refine ⟨hiff, ?_⟩
  intro heq hin
  have := (hiff.mp hin).2
  rw [heq] at this
  exact lt_irrefl _ this

theorem c7_eligibility_iff_witness :
    (centerC ∈ within_distance hav0 [] schoolA [centerC]
        PREF_DISTANCE_THRESHOLD ↔
      (hav0 schoolA.lat schoolA.long centerC.lat centerC.long ≤
          PREF_DISTANCE_THRESHOLD ∧
        get_pref [] schoolA.scode centerC.cscode > PREF_CUTOFF)) ∧
    (get_pref [] schoolA.scode centerC.cscode = PREF_CUTOFF →
      centerC ∉ within_distance hav0 [] schoolA [centerC]
        PREF_DISTANCE_THRESHOLD) :=
  c7_eligibility_iff hav0 [] schoolA [centerC] PREF_DISTANCE_THRESHOLD
    centerC (by decide) (by decide)

/-! ## Claim C8 -/

/-- Claim C8 (confirmed): building the preference table sums repeated
`(scode, cscode)` rows and `get_pref` returns the summed score, or `0` when
the school or the pair is absent; both functions are total, so no lookup
raises. -/
theorem c8_read_prefs_sums (rows : List PrefRow) (s c : String) :
    get_pref (read_prefs rows) s c = pref_row_sum rows s c :=
  read_prefs_lookup_sums rows s c

/-! ## Claim C9 -/

/-- Claim C9 (confirmed): no committed allocation pairs a school code with an
equal center code.  Every candidate a school can be granted seats at is
non-self for that school (self-coded centers are excluded from the eligible
set and from the fallback), so every ledger entry `(S, C)` of a completed run
has `S ≠ C`. -/
theorem c9_no_self_assignment (hav : ℚ → ℚ → ℚ → ℚ → ℚ)
    (rkey : School → Center → ℚ) (prefs : Dict2) (schools : List School)
    (centers : List Center) (st : RunState)
    (hrun : allocate_students_to_centers hav rkey prefs schools centers =
      some st)
    (S C : String) (hin : (pyget2 st.allocations S C).isSome = true) :
    S ≠ C :=
  schoolLoop_noself hav rkey prefs centers schools ⟨[], 0, []⟩ st hrun
    (fun S' C' h' => by simp [pyget2, pyget] at h') S C hin

theorem c9_no_self_assignment_witness : ("A" : String) ≠ "C" :=
  c9_no_self_assignment hav0 rkey1 [] [schoolA, schoolB] [centerC]
    ⟨[("A", [("C", 10)]), ("B", [("C", 10)])], 10, [("A", 5), ("B", 5)]⟩
    (by decide) "A" "C" (by decide)

/-! ## Claim C10 -/

/-- Claim C10 (confirmed): over pairwise-distinct input centers the candidate
list never repeats a center: when the eligible set is nonempty the list is a
permutation of the eligible set mapped into the option type (each eligible
center appearing exactly once), otherwise it is a one-element list; in all
cases the candidate list is duplicate-free. -/
theorem c10_candidates_nodup (hav : ℚ → ℚ → ℚ → ℚ → ℚ) (rkey : Center → ℚ)
    (prefs : Dict2) (school : School) (centers : List Center) (thr : ℚ)
    (hnd : centers.Nodup) :
    (centers_within_distance hav rkey prefs school centers thr).Nodup ∧
    (within_distance hav prefs school centers thr ≠ [] →
      List.Perm (centers_within_distance hav rkey prefs school centers thr)
        ((within_distance hav prefs school centers thr).map some)) ∧
    (within_distance hav prefs school centers thr = [] →
      ∃ x, centers_within_distance hav rkey prefs school centers thr = [x]) := by
  by_cases hw : within_distance hav prefs school centers thr = []
  · refine ⟨?_, fun h => absurd hw h, fun _ => ?_⟩
    · unfold centers_within_distance
      rw [if_pos hw]
      exact List.nodup_singleton _
    · refine ⟨Option.map Prod.snd
        (nearest_center hav prefs school centers thr), ?_⟩
      unfold centers_within_distance
      rw [if_pos hw]
  · have hperm : List.Perm
        (centers_within_distance hav rkey prefs school centers thr)
        ((within_distance hav prefs school centers thr).map some) := by
      unfold centers_within_distance
      rw [if_neg hw]
      exact List.Perm.map some
        (List.perm_insertionSort (fun a b => rkey a ≤ rkey b) _)
    refine ⟨?_, fun _ => hperm, fun h => absurd h hw⟩
    have hwnd : (within_distance hav prefs school centers thr).Nodup := by
      rw [within_distance_eq_filter]
      exact List.Nodup.filter _ hnd
    exact hperm.nodup_iff.mpr
      (hwnd.map (Option.some_injective Center))

theorem c10_candidates_nodup_witness :
    (centers_within_distance hav0 rk1 [] schoolA [centerC]
      PREF_DISTANCE_THRESHOLD).Nodup :=
  (c10_candidates_nodup hav0 rk1 [] schoolA [centerC]
    PREF_DISTANCE_THRESHOLD (by decide)).1

end SchoolCenter
